import Mathlib

/-!
Shallow embedding of the reliable-UDP project (client.py, server.py, proxy.py).

Python text strings and byte strings are modelled as `List Char` (all datagrams
in this protocol are UTF-8 text, and the `.encode()` / `.decode()` pair is the
identity on that model).  Machine integers are `Int` / `Nat`.  Randomness and
wall-clock time are passed in explicitly as oracle arguments (`ℚ` draws in
`[0,1)` for `random.random()`, a `ℚ` value for `random.uniform` and for
`time.time()`).
-/

namespace RelUdp

/-! ### Packet codec (client.py / server.py / proxy.py `create_packet` / `parse_packet`) -/

/-- The field delimiter of the wire format. -/
def delim : Char := '|'

/-- Decimal digit character for a value `d < 10` (how Python's f-string prints one digit). -/
def digitChar (d : Nat) : Char :=
  match d with
  | 0 => '0' | 1 => '1' | 2 => '2' | 3 => '3' | 4 => '4'
  | 5 => '5' | 6 => '6' | 7 => '7' | 8 => '8' | _ => '9'

/-- Decimal rendering of a natural number, as Python's `f"{n}"` produces it. -/
def natToChars (n : Nat) : List Char :=
  if _h : n < 10 then [digitChar n]
  else natToChars (n / 10) ++ [digitChar (n % 10)]
decreasing_by exact Nat.div_lt_self (by omega) (by omega)

/-- Decimal rendering of an integer, as Python's `f"{i}"` produces it. -/
def intToChars (i : Int) : List Char :=
  if i < 0 then '-' :: natToChars i.natAbs else natToChars i.natAbs

/-- `create_packet(seq_num, message_type, payload)`:
the wire form `f"{seq_num}|{message_type}|{payload}".encode()`. -/
def create_packet (seqNum : Int) (messageType payload : List Char) : List Char :=
  intToChars seqNum ++ delim :: (messageType ++ delim :: payload)

/-- The numeric value of a decimal digit character, `none` for a non-digit. -/
def digit? (c : Char) : Option Nat :=
  if '0' ≤ c ∧ c ≤ '9' then some (c.toNat - 48) else none

/-- Left-to-right accumulation of a decimal digit string; `none` on a non-digit. -/
def digitsVal : List Char → Nat → Option Nat
  | [], acc => some acc
  | c :: cs, acc =>
    match digit? c with
    | some d => digitsVal cs (10 * acc + d)
    | none => none

/-- Parse a non-empty all-digit string as a natural number. -/
def parseNat? (cs : List Char) : Option Nat :=
  if cs.isEmpty then none else digitsVal cs 0

/-- Model of Python's `int(str)`: an optional sign followed by decimal digits.
(The whitespace-stripping and underscore-grouping forms that Python also
accepts are not modelled; no packet in this protocol produces them.) -/
def pyInt? (cs : List Char) : Option Int :=
  match cs with
  | [] => none
  | c :: rest =>
    if c = '-' then (parseNat? rest).map (fun n => -(n : Int))
    else if c = '+' then (parseNat? rest).map (fun n => (n : Int))
    else (parseNat? (c :: rest)).map (fun n => (n : Int))

/-- Split a character list at the first occurrence of `'|'`;
`none` when no delimiter occurs. -/
def splitOnce : List Char → Option (List Char × List Char)
  | [] => none
  | c :: rest =>
    if c = delim then some ([], rest)
    else (splitOnce rest).map (fun p => (c :: p.1, p.2))

/-- Python's `s.split('|', 2)`: a list of one, two or three parts. -/
def split2 (cs : List Char) : List (List Char) :=
  match splitOnce cs with
  | none => [cs]
  | some (a, rest) =>
    match splitOnce rest with
    | none => [a, rest]
    | some (b, rest2) => [a, b, rest2]

/-- `parse_packet` of client.py and proxy.py: split on `'|'` at most twice;
fewer than three parts, or a sequence field `int()` rejects, yields
`(None, None, None)` (the exception is caught). -/
def parse_packet (cs : List Char) : Option (Int × List Char × List Char) :=
  match split2 cs with
  | [s, t, p] => (pyInt? s).map (fun n => (n, t, p))
  | _ => none

/-- Outcome of server.py's `parse_packet`, which has no exception handler:
fewer than three parts returns `(None, None, None)` (`malformed`), while a
sequence field that `int()` rejects raises an uncaught `ValueError`
(`raised`). -/
inductive ServerParse
  | malformed
  | raised
  | valid (seqNum : Int) (messageType payload : List Char)
  deriving DecidableEq

/-- server.py `parse_packet`: the length check runs before `int(parts[0])`. -/
def server_parse_packet (cs : List Char) : ServerParse :=
  match split2 cs with
  | [s, t, p] =>
    match pyInt? s with
    | some n => .valid n t p
    | none => .raised
  | _ => .malformed

/-! ### Dedup receiver (server.py `main` receive loop)

The receive loop is embedded as one step per inbound datagram.  The client key
is the string `f"{ip}:{port}"`; it is taken here as an opaque `String`.  An
exception escaping the `while` loop (the bare `int(parts[0])` of server.py's
`parse_packet`) is caught only outside the loop, so it terminates the receive
loop: that is recorded in the `crashed` flag, and a crashed server processes
nothing further. -/

/-- Metrics and state of server.py's `main`. -/
structure ServerState where
  packetsReceived : Nat
  uniquePacketsReceived : Nat
  duplicatePackets : Nat
  acksSent : Nat
  clientSeqNums : List (String × Int)
  crashed : Bool
  deriving DecidableEq

/-- The server state at start-up. -/
def initServerState : ServerState :=
  { packetsReceived := 0, uniquePacketsReceived := 0, duplicatePackets := 0,
    acksSent := 0, clientSeqNums := [], crashed := false }

/-- Dictionary lookup, `client_key in client_seq_nums` plus indexing. -/
def mapLookup : List (String × Int) → String → Option Int
  | [], _ => none
  | (k, v) :: rest, key => if k = key then some v else mapLookup rest key

/-- Dictionary update `client_seq_nums[client_key] = v`. -/
def mapInsert : List (String × Int) → String → Int → List (String × Int)
  | [], key, v => [(key, v)]
  | (k, w) :: rest, key, v =>
    if k = key then (k, v) :: rest else (k, w) :: mapInsert rest key v

/-- server.py lines 77-94: an absent client key is first initialized to
`seq_num - 1` and the packet marked new; for a present key the packet is new
iff `seq_num` strictly exceeds the stored value; a new packet overwrites the
stored value with `seq_num`, a duplicate leaves it unchanged.  Returns the
classification (`true` = new) and the resulting stored value. -/
def dedupStep (stored : Option Int) (seqNum : Int) : Bool × Int :=
  let p :=
    match stored with
    | none => (seqNum - 1, true)
    | some last => (last, decide (seqNum > last))
  if p.2 then (true, seqNum) else (false, p.1)

/-- One iteration of server.py's receive loop for the datagram `d` arriving
from the client identified by `clientKey`: returns the new state and the ACK
datagram sent back, if any. -/
def serverStep (st : ServerState) (clientKey : String) (d : List Char) :
    ServerState × Option (List Char) :=
  if st.crashed then (st, none)
  else
    let st1 := { st with packetsReceived := st.packetsReceived + 1 }
    match server_parse_packet d with
    | .malformed => (st1, none)
    | .raised => ({ st1 with crashed := true }, none)
    | .valid seqNum _ _ =>
      let r := dedupStep (mapLookup st1.clientSeqNums clientKey) seqNum
      let st2 :=
        if r.1 then
          { st1 with uniquePacketsReceived := st1.uniquePacketsReceived + 1,
                     clientSeqNums := mapInsert st1.clientSeqNums clientKey r.2 }
        else
          { st1 with duplicatePackets := st1.duplicatePackets + 1 }
      ({ st2 with acksSent := st2.acksSent + 1 },
        some (create_packet seqNum ("ACK".toList) []))

/-! ### ARQ sender (client.py `main`, inner retry loop)

The transport is an oracle list of events, one per `recvfrom` call: a timeout,
a received datagram, or an unexpected socket exception (the outer
`except Exception` path).  Wall-clock RTT values are not modelled. -/

/-- The fixed retry budget, `max_retries = 5`. -/
def maxRetries : Nat := 5

/-- What one blocking `recvfrom` call yields. -/
inductive NetEvent
  | timeout
  | recv (d : List Char)
  | sockError
  deriving DecidableEq

/-- The counters the retry loop mutates, plus the trace of datagrams actually
passed to `sendto`. -/
structure SendAcc where
  sent : List (List Char)
  packetsSent : Nat
  retransmissions : Nat
  acksReceived : Nat
  deriving DecidableEq

/-- How the per-message retry loop ended: `acked` / `failed` as in the spec;
`blocked` when the event oracle is exhausted while the loop would still wait;
`aborted` on the unexpected-exception path. -/
inductive SendOutcome
  | acked
  | failed
  | blocked
  | aborted
  deriving DecidableEq

/-- Result of sending one message: outcome, the value of `seq_num` after the
loop, and the final counters. -/
structure SendResult where
  outcome : SendOutcome
  seqAfter : Nat
  sent : List (List Char)
  packetsSent : Nat
  retransmissions : Nat
  acksReceived : Nat
  deriving DecidableEq

/-- Package the accumulated counters with an outcome. -/
def SendAcc.done (acc : SendAcc) (o : SendOutcome) (s : Nat) : SendResult :=
  { outcome := o, seqAfter := s, sent := acc.sent, packetsSent := acc.packetsSent,
    retransmissions := acc.retransmissions, acksReceived := acc.acksReceived }

/-- The guarded (re)transmission at the top of the loop body: the packet is
passed to `sendto` only when `retry_count == 0 or packet_sent_time is None`
(after which `packet_sent_time` is set and `packets_sent` incremented). -/
def sendPacketIfNeeded (seqNum : Nat) (message : List Char) (retryCount : Nat)
    (alreadySent : Bool) (acc : SendAcc) : SendAcc :=
  if retryCount == 0 || !alreadySent then
    { acc with
      sent := acc.sent ++ [create_packet (seqNum : Int) ("DATA".toList) message],
      packetsSent := acc.packetsSent + 1 }
  else acc

/-- client.py lines 117-163, the `while retry_count <= max_retries` loop.
`alreadySent` models `packet_sent_time is not None`; after the guarded send
at the top of any iteration it is necessarily set (the loop body never resets
it), so the recursive calls pass `true`.  On timeout, `retry_count` and
`retransmissions` increment and the loop fails once
`retry_count > max_retries`.  A received datagram is parsed; only an ACK
carrying the outstanding sequence number ends the loop (incrementing
`seq_num`); anything else is logged and the wait continues.  An unexpected
exception (`sockError`) aborts the loop. -/
def sendLoopGo (seqNum : Nat) (message : List Char) :
    List NetEvent → Nat → Bool → SendAcc → SendResult
  | events, retryCount, alreadySent, acc =>
    if retryCount > maxRetries then acc.done .failed seqNum
    else
      let acc' := sendPacketIfNeeded seqNum message retryCount alreadySent acc
      match events with
      | [] => acc'.done .blocked seqNum
      | .sockError :: _ => acc'.done .aborted seqNum
      | .timeout :: rest =>
        let acc2 := { acc' with retransmissions := acc'.retransmissions + 1 }
        if retryCount + 1 > maxRetries then acc2.done .failed seqNum
        else sendLoopGo seqNum message rest (retryCount + 1) true acc2
      | .recv d :: rest =>
        match parse_packet d with
        | some (ackSeq, msgType, _) =>
          if msgType = "ACK".toList ∧ ackSeq = (seqNum : Int) then
            ({ acc' with acksReceived := acc'.acksReceived + 1 }).done .acked (seqNum + 1)
          else sendLoopGo seqNum message rest retryCount true acc'
        | none => sendLoopGo seqNum message rest retryCount true acc'

/-- One user message sent through the retry loop, from fresh per-message state
(`retry_count = 0`, `packet_sent_time = None`) and zeroed counters. -/
def sendLoop (seqNum : Nat) (message : List Char) (events : List NetEvent) : SendResult :=
  sendLoopGo seqNum message events 0 false
    { sent := [], packetsSent := 0, retransmissions := 0, acksReceived := 0 }

/-! ### Proxy (proxy.py `main` receive loop and scheduler)

`random.random()` draws and `random.uniform` results are oracle arguments;
probabilities and times are rationals.  `time.time()` is the oracle `now`. -/

/-- A UDP endpoint `(ip, port)`. -/
abbrev Endpoint := String × Nat

/-- The shaping parameters of the shared `config` dictionary (the `verbose`
flag only affects logging and is omitted), together with the configured
server address. -/
structure ProxyConfig where
  serverIp : String
  serverPort : Nat
  clientDrop : ℚ
  serverDrop : ℚ
  clientDelay : ℚ
  serverDelay : ℚ
  clientDelayTimeRange : ℚ × ℚ
  serverDelayTimeRange : ℚ × ℚ

/-- The configured server endpoint. -/
def serverEndpoint (cfg : ProxyConfig) : Endpoint := (cfg.serverIp, cfg.serverPort)

/-- An entry of the `delayed_packets` queue: `(send_time, socket, target_addr,
data)` — the socket is always `proxy_socket` and is omitted. -/
structure PendingDelivery where
  sendTime : ℚ
  dest : Endpoint
  data : List Char
  deriving DecidableEq

/-- The proxy's mutable state: the latest client pointer, the FIFO
`delayed_packets` queue, and the metrics counters. -/
structure ProxyState where
  latestClient : Option Endpoint
  delayedPackets : List PendingDelivery
  clientToServerPackets : Nat
  serverToClientPackets : Nat
  clientToServerDropped : Nat
  serverToClientDropped : Nat
  clientToServerDelayed : Nat
  serverToClientDelayed : Nat
  totalPackets : Nat
  deriving DecidableEq

/-- The proxy state at start-up (`latest_client = None`, empty queue, zeroed
metrics). -/
def initProxyState : ProxyState :=
  { latestClient := none, delayedPackets := [],
    clientToServerPackets := 0, serverToClientPackets := 0,
    clientToServerDropped := 0, serverToClientDropped := 0,
    clientToServerDelayed := 0, serverToClientDelayed := 0, totalPackets := 0 }

/-- The `perfect` preset of the live console (0% drop, 0% delay, 100ms range),
at the argparse default server address `127.0.0.1:5000`. -/
def perfectConfig : ProxyConfig :=
  { serverIp := "127.0.0.1", serverPort := 5000,
    clientDrop := 0, serverDrop := 0, clientDelay := 0, serverDelay := 0,
    clientDelayTimeRange := (1/10, 1/10), serverDelayTimeRange := (1/10, 1/10) }

/-- The `blackhole` preset of the live console (100% drop, 0% delay, 100ms
range), at the argparse default server address `127.0.0.1:5000`. -/
def blackholeConfig : ProxyConfig :=
  { serverIp := "127.0.0.1", serverPort := 5000,
    clientDrop := 1, serverDrop := 1, clientDelay := 0, serverDelay := 0,
    clientDelayTimeRange := (1/10, 1/10), serverDelayTimeRange := (1/10, 1/10) }

/-- `should_drop_packet`: `random.random() < drop_probability`. -/
def should_drop_packet (dropProbability draw : ℚ) : Bool := draw < dropProbability

/-- `should_delay_packet`: `random.random() < delay_probability`. -/
def should_delay_packet (delayProbability draw : ℚ) : Bool := draw < delayProbability

/-- `get_random_delay`: the range minimum when the range is degenerate,
otherwise a `random.uniform(min, max)` draw, supplied by the oracle `u`. -/
def get_random_delay (range : ℚ × ℚ) (u : ℚ) : ℚ :=
  if range.1 = range.2 then range.1 else u

/-- One iteration of proxy.py's receive loop (lines 528-616) for a datagram
`data` arriving from `src`: classification by source endpoint, the
drop / delay / forward decision, and the metrics updates.  Returns the new
state and the datagrams passed to `sendto` in this iteration.  `parse_packet`
is also called there, but only to build log lines, so it does not appear
here. -/
def proxyStep (cfg : ProxyConfig) (st : ProxyState) (src : Endpoint)
    (data : List Char) (now dropDraw delayDraw uniformDraw : ℚ) :
    ProxyState × List (Endpoint × List Char) :=
  let st := { st with totalPackets := st.totalPackets + 1 }
  if src.1 = cfg.serverIp ∧ src.2 = cfg.serverPort then
    let st := { st with serverToClientPackets := st.serverToClientPackets + 1 }
    match st.latestClient with
    | some client =>
      if should_drop_packet cfg.serverDrop dropDraw then
        ({ st with serverToClientDropped := st.serverToClientDropped + 1 }, [])
      else if should_delay_packet cfg.serverDelay delayDraw then
        let delay := get_random_delay cfg.serverDelayTimeRange uniformDraw
        ({ st with
           delayedPackets := st.delayedPackets ++ [⟨now + delay, client, data⟩],
           serverToClientDelayed := st.serverToClientDelayed + 1 }, [])
      else
        (st, [(client, data)])
    | none =>
      -- "ERROR: No client to forward to. Packet dropped."
      (st, [])
  else
    let st := { st with clientToServerPackets := st.clientToServerPackets + 1,
                        latestClient := some src }
    if should_drop_packet cfg.clientDrop dropDraw then
      ({ st with clientToServerDropped := st.clientToServerDropped + 1 }, [])
    else if should_delay_packet cfg.clientDelay delayDraw then
      let delay := get_random_delay cfg.clientDelayTimeRange uniformDraw
      ({ st with
         delayedPackets := st.delayedPackets ++ [⟨now + delay, serverEndpoint cfg, data⟩],
         clientToServerDelayed := st.clientToServerDelayed + 1 }, [])
    else
      (st, [(serverEndpoint cfg, data)])

/-- Total datagrams dropped by the proxy, both directions. -/
def droppedTotal (st : ProxyState) : Nat :=
  st.clientToServerDropped + st.serverToClientDropped

/-- Total datagrams delayed by the proxy, both directions. -/
def delayedTotal (st : ProxyState) : Nat :=
  st.clientToServerDelayed + st.serverToClientDelayed

/-- proxy.py lines 490-515, `process_delayed_packets`: the worker dequeues the
FIFO queue front to back; for each entry it sleeps `max(0, send_time - now)`
and then sends, so the delivery instant is `max now sendTime` and becomes the
new clock value.  Returns the `(delivery_time, dest, data)` events in the
order they are sent. -/
def process_delayed_packets : ℚ → List PendingDelivery → List (ℚ × Endpoint × List Char)
  | _, [] => []
  | now, p :: rest =>
    let deliveryTime := max now p.sendTime
    (deliveryTime, p.dest, p.data) :: process_delayed_packets deliveryTime rest

/-! ### Codec lemmas -/

theorem digit?_digitChar {d : Nat} (hd : d < 10) : digit? (digitChar d) = some d := by
  interval_cases d <;> decide

theorem mem_natToChars : ∀ (n : Nat) {c : Char}, c ∈ natToChars n → (digit? c).isSome := by
  intro n
  induction n using Nat.strong_induction_on with
  | _ n ih =>
    intro c hc
    rw [natToChars] at hc
    split at hc
    · next h =>
      simp only [List.mem_singleton] at hc
      subst hc
      rw [digit?_digitChar h]
      rfl
    · next h =>
      rcases List.mem_append.mp hc with h1 | h1
      · exact ih (n / 10) (Nat.div_lt_self (by omega) (by omega)) h1
      · simp only [List.mem_singleton] at h1
        subst h1
        rw [digit?_digitChar (Nat.mod_lt _ (by omega))]
        rfl

theorem natToChars_ne_nil (n : Nat) : natToChars n ≠ [] := by
  rw [natToChars]
  split <;> simp

theorem isSome_digit?_ne {c : Char} (h : (digit? c).isSome) :
    c ≠ delim ∧ c ≠ '-' ∧ c ≠ '+' := by
  refine ⟨?_, ?_, ?_⟩ <;> rintro rfl <;> revert h <;> decide

theorem splitOnce_append {a : List Char} (b : List Char) (ha : ∀ c ∈ a, c ≠ delim) :
    splitOnce (a ++ delim :: b) = some (a, b) := by
  induction a with
  | nil => simp [splitOnce]
  | cons c cs ih =>
    have hc : c ≠ delim := ha c (by simp)
    simp only [List.cons_append, splitOnce, if_neg hc, List.append_eq]
    rw [ih (fun x hx => ha x (by simp [hx]))]
    rfl

theorem split2_append (a b c : List Char) (ha : ∀ x ∈ a, x ≠ delim)
    (hb : ∀ x ∈ b, x ≠ delim) :
    split2 (a ++ delim :: (b ++ delim :: c)) = [a, b, c] := by
  have h1 := splitOnce_append (b ++ delim :: c) ha
  have h2 := splitOnce_append c hb
  simp only [split2, h1, h2]

theorem digitsVal_append (xs ys : List Char) (acc : Nat) :
    digitsVal (xs ++ ys) acc = (digitsVal xs acc).bind (fun m => digitsVal ys m) := by
  induction xs generalizing acc with
  | nil => rfl
  | cons c cs ih =>
    simp only [List.cons_append, digitsVal]
    cases digit? c with
    | none => rfl
    | some d => exact ih _

theorem digitsVal_natToChars :
    ∀ (n acc : Nat), digitsVal (natToChars n) acc =
      some (acc * 10 ^ (natToChars n).length + n) := by
  intro n
  induction n using Nat.strong_induction_on with
  | _ n ih =>
    intro acc
    rw [natToChars]
    split
    · next h =>
      simp only [digitsVal, digit?_digitChar h, List.length_singleton, pow_one]
      congr 1
      ring
    · next h =>
      rw [digitsVal_append, ih (n / 10) (Nat.div_lt_self (by omega) (by omega)) acc]
      simp only [Option.some_bind, digitsVal, digit?_digitChar (Nat.mod_lt n (by omega)),
        List.length_append, List.length_singleton, pow_succ]
      congr 1
      have hdm := Nat.div_add_mod n 10
      calc 10 * (acc * 10 ^ (natToChars (n / 10)).length + n / 10) + n % 10
          = acc * (10 ^ (natToChars (n / 10)).length * 10) + (10 * (n / 10) + n % 10) := by
            ring
        _ = acc * (10 ^ (natToChars (n / 10)).length * 10) + n := by rw [hdm]

theorem parseNat?_natToChars (n : Nat) : parseNat? (natToChars n) = some n := by
  have h1 : (natToChars n).isEmpty = false := by
    cases h : natToChars n with
    | nil => exact absurd h (natToChars_ne_nil n)
    | cons c cs => rfl
  rw [parseNat?, h1]
  simp [digitsVal_natToChars]

theorem pyInt?_natToChars (n : Nat) : pyInt? (natToChars n) = some (n : Int) := by
  cases h : natToChars n with
  | nil => exact absurd h (natToChars_ne_nil n)
  | cons c rest =>
    have hd : (digit? c).isSome := mem_natToChars n (h.symm ▸ List.mem_cons_self c rest)
    obtain ⟨-, h2, h3⟩ := isSome_digit?_ne hd
    have hp : parseNat? (c :: rest) = some n := h ▸ parseNat?_natToChars n
    simp [pyInt?, h2, h3, hp]

theorem pyInt?_intToChars (i : Int) : pyInt? (intToChars i) = some i := by
  rw [intToChars]
  split
  · next h =>
    have hp := parseNat?_natToChars i.natAbs
    simp [pyInt?, hp, Int.natCast_natAbs, abs_of_neg h]
  · next h =>
    rw [pyInt?_natToChars]
    simp only [Option.some.injEq]
    omega

theorem mem_intToChars_ne_delim (i : Int) : ∀ c ∈ intToChars i, c ≠ delim := by
  intro c hc
  rw [intToChars] at hc
  split at hc
  · rcases List.mem_cons.mp hc with rfl | hc
    · decide
    · exact (isSome_digit?_ne (mem_natToChars _ hc)).1
  · exact (isSome_digit?_ne (mem_natToChars _ hc)).1

theorem parse_packet_create_packet (i : Int) (ty payload : List Char)
    (hty : ∀ c ∈ ty, c ≠ delim) :
    parse_packet (create_packet i ty payload) = some (i, ty, payload) := by
  rw [create_packet, parse_packet,
    split2_append (intToChars i) ty payload (mem_intToChars_ne_delim i) hty]
  simp [pyInt?_intToChars]

/-- C2: for every non-negative sequence number, message type in `{DATA, ACK}` and
payload (the delimiter allowed inside the payload), decoding the encoded packet
returns exactly the original triple. -/
theorem c2_roundtrip (seqNum : Nat) (messageType payload : List Char)
    (h : messageType = "DATA".toList ∨ messageType = "ACK".toList) :
    parse_packet (create_packet (seqNum : Int) messageType payload) =
      some ((seqNum : Int), messageType, payload) := by
  apply parse_packet_create_packet
  rcases h with rfl | rfl <;> decide

/-- C2 witness: the round trip evaluated on sequence number 7, type DATA and a
payload that itself contains the delimiter. -/
theorem c2_roundtrip_witness :
    parse_packet (create_packet ((7 : Nat) : Int) "DATA".toList "he|llo".toList) =
      some (((7 : Nat) : Int), "DATA".toList, "he|llo".toList) :=
  c2_roundtrip 7 ("DATA".toList) ("he|llo".toList) (Or.inl rfl)

/-! ### Dedup receiver lemmas -/

theorem mapLookup_mapInsert (m : List (String × Int)) (k : String) (v : Int) :
    mapLookup (mapInsert m k v) k = some v := by
  induction m with
  | nil => simp [mapInsert, mapLookup]
  | cons kv rest ih =>
    obtain ⟨k0, v0⟩ := kv
    by_cases h : k0 = k
    · simp [mapInsert, mapLookup, h]
    · simp [mapInsert, mapLookup, h, ih]

theorem serverStep_valid_snd {st : ServerState} {key : String} {d : List Char}
    {seqNum : Int} {ty payload : List Char}
    (hc : st.crashed = false) (hp : server_parse_packet d = .valid seqNum ty payload) :
    (serverStep st key d).2 = some (create_packet seqNum ("ACK".toList) []) := by
  simp only [serverStep, hc, hp, Bool.false_eq_true, if_false]

theorem serverStep_valid_acksSent {st : ServerState} {key : String} {d : List Char}
    {seqNum : Int} {ty payload : List Char}
    (hc : st.crashed = false) (hp : server_parse_packet d = .valid seqNum ty payload) :
    (serverStep st key d).1.acksSent = st.acksSent + 1 := by
  simp only [serverStep, hc, hp, Bool.false_eq_true, if_false]
  split <;> rfl

theorem serverStep_valid_lookup {st : ServerState} {key : String} {d : List Char}
    {seqNum : Int} {ty payload : List Char}
    (hc : st.crashed = false) (hp : server_parse_packet d = .valid seqNum ty payload) :
    mapLookup (serverStep st key d).1.clientSeqNums key =
      some ((dedupStep (mapLookup st.clientSeqNums key) seqNum).2) := by
  simp only [serverStep, hc, hp, Bool.false_eq_true, if_false]
  split
  · next hn => simp [mapLookup_mapInsert]
  · next hn =>
    -- duplicate: the map is not written; a duplicate requires a present key
    cases hl : mapLookup st.clientSeqNums key with
    | none =>
      rw [hl] at hn
      exact absurd rfl hn
    | some last =>
      rw [hl] at hn
      by_cases h' : seqNum > last
      · exact absurd (by simp [dedupStep, h']) hn
      · simp [dedupStep, hl, h']

theorem serverStep_malformed {st : ServerState} {key : String} {d : List Char}
    (hc : st.crashed = false) (hp : server_parse_packet d = .malformed) :
    serverStep st key d = ({ st with packetsReceived := st.packetsReceived + 1 }, none) := by
  simp only [serverStep, hc, hp, Bool.false_eq_true, if_false]

theorem serverStep_raised {st : ServerState} {key : String} {d : List Char}
    (hc : st.crashed = false) (hp : server_parse_packet d = .raised) :
    serverStep st key d =
      ({ st with packetsReceived := st.packetsReceived + 1, crashed := true }, none) := by
  simp only [serverStep, hc, hp, Bool.false_eq_true, if_false]

/-- C3: the first packet from an endpoint initializes the stored value (to
`seq_num - 1`, immediately overwritten by `seq_num`) and is classified new;
thereafter a packet is new, and the stored value becomes its sequence number,
iff its sequence number strictly exceeds the stored value, a duplicate leaving
the value unchanged; hence the stored value never decreases — and `serverStep`
stores exactly the value `dedupStep` yields for the packet's endpoint. -/
theorem c3_monotonic_acceptance :
    (∀ seqNum : Int, dedupStep none seqNum = (true, seqNum)) ∧
    (∀ last seqNum : Int,
      dedupStep (some last) seqNum =
        if last < seqNum then (true, seqNum) else (false, last)) ∧
    (∀ last seqNum : Int, last ≤ (dedupStep (some last) seqNum).2) ∧
    (∀ (st : ServerState) (key : String) (d : List Char) (seqNum : Int)
      (ty payload : List Char), st.crashed = false →
      server_parse_packet d = .valid seqNum ty payload →
      mapLookup (serverStep st key d).1.clientSeqNums key =
        some ((dedupStep (mapLookup st.clientSeqNums key) seqNum).2)) := by
  refine ⟨fun seqNum => rfl, fun last seqNum => ?_, fun last seqNum => ?_, ?_⟩
  · by_cases h : last < seqNum <;> simp [dedupStep, h]
  · by_cases h : last < seqNum <;> simp [dedupStep, h, le_of_lt]
  · intro st key d seqNum ty payload hc hp
    exact serverStep_valid_lookup hc hp

/-- C3 witness: a fresh endpoint sending sequence 5 is new and stores 5; a
following 3 is a duplicate keeping 5; through `serverStep`, the first valid
packet `5|DATA|x` leaves 5 stored for its endpoint. -/
theorem c3_monotonic_acceptance_witness :
    dedupStep none (5 : Int) = (true, 5) ∧
    dedupStep (some 5) (3 : Int) = (false, 5) ∧
    (5 : Int) ≤ (dedupStep (some 5) (3 : Int)).2 ∧
    mapLookup (serverStep initServerState "127.0.0.1:40000" ("5|DATA|x".toList)).1.clientSeqNums
        "127.0.0.1:40000" =
      some ((dedupStep (mapLookup initServerState.clientSeqNums "127.0.0.1:40000") 5).2) := by
  refine ⟨c3_monotonic_acceptance.1 5, ?_, c3_monotonic_acceptance.2.2.1 5 3, ?_⟩
  · rw [c3_monotonic_acceptance.2.1 5 3]
    decide
  · exact c3_monotonic_acceptance.2.2.2 initServerState "127.0.0.1:40000"
      ("5|DATA|x".toList) 5 ("DATA".toList) ("x".toList) rfl (by decide)

/-- C4: every structurally valid inbound packet — duplicate or not — makes the
receiver emit exactly one ACK, carrying the inbound sequence number, an empty
payload, and the wire form `<seq>|ACK|`. -/
theorem c4_ack_always :
    ∀ (st : ServerState) (key : String) (d : List Char) (seqNum : Int)
      (ty payload : List Char), st.crashed = false →
      server_parse_packet d = .valid seqNum ty payload →
      (serverStep st key d).2 = some (create_packet seqNum ("ACK".toList) []) ∧
      create_packet seqNum ("ACK".toList) [] =
        intToChars seqNum ++ '|' :: 'A' :: 'C' :: 'K' :: ['|'] ∧
      (serverStep st key d).1.acksSent = st.acksSent + 1 := by
  intro st key d seqNum ty payload hc hp
  exact ⟨serverStep_valid_snd hc hp, rfl, serverStep_valid_acksSent hc hp⟩

/-- C4 witness: the spec scenario — the first message `0|DATA|hello` is
answered by exactly one ACK, namely `0|ACK|`. -/
theorem c4_ack_always_witness :
    ((serverStep initServerState "127.0.0.1:40000" ("0|DATA|hello".toList)).2 =
        some (create_packet 0 ("ACK".toList) []) ∧
      create_packet 0 ("ACK".toList) [] =
        intToChars 0 ++ '|' :: 'A' :: 'C' :: 'K' :: ['|'] ∧
      (serverStep initServerState "127.0.0.1:40000" ("0|DATA|hello".toList)).1.acksSent =
        initServerState.acksSent + 1) ∧
    create_packet 0 ("ACK".toList) [] = "0|ACK|".toList := by
  constructor
  · exact c4_ack_always initServerState "127.0.0.1:40000" ("0|DATA|hello".toList) 0
      ("DATA".toList) ("hello".toList) rfl (by decide)
  · simp [create_packet, intToChars, natToChars, digitChar, delim]

/-! ### ARQ sender lemmas -/

theorem sendLoopGo_nil {s : Nat} {m : List Char} {r : Nat} {a : Bool} {acc : SendAcc} :
    sendLoopGo s m [] r a acc =
      if r > maxRetries then acc.done .failed s
      else (sendPacketIfNeeded s m r a acc).done .blocked s := rfl

theorem sendLoopGo_sockError {s : Nat} {m : List Char} {es : List NetEvent} {r : Nat}
    {a : Bool} {acc : SendAcc} :
    sendLoopGo s m (.sockError :: es) r a acc =
      if r > maxRetries then acc.done .failed s
      else (sendPacketIfNeeded s m r a acc).done .aborted s := rfl

theorem sendLoopGo_timeout {s : Nat} {m : List Char} {rest : List NetEvent} {r : Nat}
    {a : Bool} {acc : SendAcc} :
    sendLoopGo s m (.timeout :: rest) r a acc =
      if r > maxRetries then acc.done .failed s
      else
        if r + 1 > maxRetries then
          ({ sendPacketIfNeeded s m r a acc with
             retransmissions := (sendPacketIfNeeded s m r a acc).retransmissions + 1 }).done
            .failed s
        else
          sendLoopGo s m rest (r + 1) true
            { sendPacketIfNeeded s m r a acc with
              retransmissions := (sendPacketIfNeeded s m r a acc).retransmissions + 1 } := rfl

theorem sendLoopGo_recv {s : Nat} {m d : List Char} {rest : List NetEvent} {r : Nat}
    {a : Bool} {acc : SendAcc} :
    sendLoopGo s m (.recv d :: rest) r a acc =
      if r > maxRetries then acc.done .failed s
      else
        match parse_packet d with
        | some (ackSeq, msgType, _) =>
          if msgType = "ACK".toList ∧ ackSeq = (s : Int) then
            ({ sendPacketIfNeeded s m r a acc with
               acksReceived := (sendPacketIfNeeded s m r a acc).acksReceived + 1 }).done
              .acked (s + 1)
          else sendLoopGo s m rest r true (sendPacketIfNeeded s m r a acc)
        | none => sendLoopGo s m rest r true (sendPacketIfNeeded s m r a acc) := rfl

theorem sendLoopGo_recv_none {s : Nat} {m d : List Char} {rest : List NetEvent} {r : Nat}
    {a : Bool} {acc : SendAcc} (hp : parse_packet d = none) :
    sendLoopGo s m (.recv d :: rest) r a acc =
      if r > maxRetries then acc.done .failed s
      else sendLoopGo s m rest r true (sendPacketIfNeeded s m r a acc) := by
  rw [sendLoopGo_recv, hp]

theorem sendLoopGo_recv_matched {s : Nat} {m d : List Char} {rest : List NetEvent}
    {r : Nat} {a : Bool} {acc : SendAcc} {ackSeq : Int} {msgType pl : List Char}
    (hp : parse_packet d = some (ackSeq, msgType, pl))
    (hm : msgType = "ACK".toList ∧ ackSeq = (s : Int)) :
    sendLoopGo s m (.recv d :: rest) r a acc =
      if r > maxRetries then acc.done .failed s
      else
        ({ sendPacketIfNeeded s m r a acc with
           acksReceived := (sendPacketIfNeeded s m r a acc).acksReceived + 1 }).done
          .acked (s + 1) := by
  rw [sendLoopGo_recv, hp]
  obtain ⟨h1, h2⟩ := hm
  subst h1
  subst h2
  simp

theorem sendLoopGo_recv_unmatched {s : Nat} {m d : List Char} {rest : List NetEvent}
    {r : Nat} {a : Bool} {acc : SendAcc} {ackSeq : Int} {msgType pl : List Char}
    (hp : parse_packet d = some (ackSeq, msgType, pl))
    (hm : ¬(msgType = "ACK".toList ∧ ackSeq = (s : Int))) :
    sendLoopGo s m (.recv d :: rest) r a acc =
      if r > maxRetries then acc.done .failed s
      else sendLoopGo s m rest r true (sendPacketIfNeeded s m r a acc) := by
  rw [sendLoopGo_recv, hp]
  split_ifs with h1
  · rfl
  · exact if_neg hm

theorem sendLoopGo_seqAfter (s : Nat) (m : List Char) :
    ∀ (events : List NetEvent) (r : Nat) (a : Bool) (acc : SendAcc),
      (sendLoopGo s m events r a acc).seqAfter =
        (if (sendLoopGo s m events r a acc).outcome = .acked then s + 1 else s) := by
  intro events
  induction events with
  | nil =>
    intro r a acc
    rw [sendLoopGo_nil]
    split_ifs <;> simp_all [SendAcc.done]
  | cons e rest ih =>
    intro r a acc
    cases e with
    | timeout =>
      rw [sendLoopGo_timeout]
      split_ifs <;> simp_all [SendAcc.done]
    | sockError =>
      rw [sendLoopGo_sockError]
      split_ifs <;> simp_all [SendAcc.done]
    | recv d =>
      rcases hp : parse_packet d with - | ⟨ackSeq, msgType, pl⟩
      · rw [sendLoopGo_recv_none hp]
        split_ifs <;> simp_all [SendAcc.done]
      · by_cases hm : msgType = "ACK".toList ∧ ackSeq = (s : Int)
        · rw [sendLoopGo_recv_matched hp hm]
          split_ifs <;> simp_all [SendAcc.done]
        · rw [sendLoopGo_recv_unmatched hp hm]
          split_ifs <;> simp_all [SendAcc.done]

theorem mem_sendPacketIfNeeded_sent {s : Nat} {m : List Char} {r : Nat} {a : Bool}
    {acc : SendAcc} {p : List Char}
    (hp : p ∈ (sendPacketIfNeeded s m r a acc).sent) :
    p ∈ acc.sent ∨ p = create_packet (s : Int) ("DATA".toList) m := by
  rw [sendPacketIfNeeded] at hp
  split_ifs at hp
  · rcases List.mem_append.mp hp with h | h
    · exact Or.inl h
    · simp only [List.mem_singleton] at h
      exact Or.inr h
  · exact Or.inl hp

theorem sendLoopGo_sent (s : Nat) (m : List Char) :
    ∀ (events : List NetEvent) (r : Nat) (a : Bool) (acc : SendAcc) (p : List Char),
      p ∈ (sendLoopGo s m events r a acc).sent →
      p ∈ acc.sent ∨ p = create_packet (s : Int) ("DATA".toList) m := by
  intro events
  induction events with
  | nil =>
    intro r a acc p hp
    rw [sendLoopGo_nil] at hp
    split_ifs at hp
    · exact Or.inl hp
    · exact mem_sendPacketIfNeeded_sent hp
  | cons e rest ih =>
    intro r a acc p hp
    cases e with
    | timeout =>
      rw [sendLoopGo_timeout] at hp
      split_ifs at hp
      · exact Or.inl hp
      · exact mem_sendPacketIfNeeded_sent hp
      · rcases ih _ _ _ _ hp with h | h
        · exact mem_sendPacketIfNeeded_sent h
        · exact Or.inr h
    | sockError =>
      rw [sendLoopGo_sockError] at hp
      split_ifs at hp
      · exact Or.inl hp
      · exact mem_sendPacketIfNeeded_sent hp
    | recv d =>
      rcases hq : parse_packet d with - | ⟨ackSeq, msgType, pl⟩
      · rw [sendLoopGo_recv_none hq] at hp
        split_ifs at hp
        · exact Or.inl hp
        · rcases ih _ _ _ _ hp with h | h
          · exact mem_sendPacketIfNeeded_sent h
          · exact Or.inr h
      · by_cases hm : msgType = "ACK".toList ∧ ackSeq = (s : Int)
        · rw [sendLoopGo_recv_matched hq hm] at hp
          split_ifs at hp
          · exact Or.inl hp
          · exact mem_sendPacketIfNeeded_sent hp
        · rw [sendLoopGo_recv_unmatched hq hm] at hp
          split_ifs at hp
          · exact Or.inl hp
          · rcases ih _ _ _ _ hp with h | h
            · exact mem_sendPacketIfNeeded_sent h
            · exact Or.inr h

/-- C1: with a transport that never replies, the retry loop ends in FAILED
after six timeout waits (`retry_count` reaches `max_retries + 1 = 6` and the
`retransmissions` counter reaches 6) — but the DATA packet is passed to
`sendto` exactly once: the guard `retry_count == 0 or packet_sent_time is
None` is false on every timeout iteration, so the claimed `max_retries + 1`
transmission attempts never happen and no retransmission is sent. -/
theorem c1_failed_without_retransmission
    (seqNum : Nat) (message : List Char) (rest : List NetEvent) :
    sendLoop seqNum message
      (.timeout :: .timeout :: .timeout :: .timeout :: .timeout :: .timeout :: rest) =
      { outcome := .failed, seqAfter := seqNum,
        sent := [create_packet (seqNum : Int) ("DATA".toList) message],
        packetsSent := 1, retransmissions := 6, acksReceived := 0 } := rfl

/-- C9: `seq_num` advances by exactly one iff the loop ends ACKED and is
unchanged otherwise; every datagram a message's loop transmits carries that
message's sequence number (no retry advances it); and the message sent after
a FAILED one reuses the very same sequence number. -/
theorem c9_seq_counter_only_on_ack :
    (∀ (seqNum : Nat) (message : List Char) (events : List NetEvent)
      (retryCount : Nat) (alreadySent : Bool) (acc : SendAcc),
      (sendLoopGo seqNum message events retryCount alreadySent acc).seqAfter =
        (if (sendLoopGo seqNum message events retryCount alreadySent acc).outcome = .acked
         then seqNum + 1 else seqNum)) ∧
    (∀ (seqNum : Nat) (message : List Char) (events : List NetEvent) (p : List Char),
      p ∈ (sendLoop seqNum message events).sent →
      p = create_packet (seqNum : Int) ("DATA".toList) message) ∧
    (∀ (seqNum : Nat) (m1 m2 : List Char) (e1 e2 : List NetEvent),
      (sendLoop seqNum m1 e1).outcome = .failed →
      (sendLoop seqNum m1 e1).seqAfter = seqNum ∧
      ∀ p ∈ (sendLoop (sendLoop seqNum m1 e1).seqAfter m2 e2).sent,
        p = create_packet (seqNum : Int) ("DATA".toList) m2) := by
  have hsent : ∀ (seqNum : Nat) (message : List Char) (events : List NetEvent)
      (p : List Char), p ∈ (sendLoop seqNum message events).sent →
      p = create_packet (seqNum : Int) ("DATA".toList) message := by
    intro seqNum message events p hp
    rcases sendLoopGo_sent seqNum message events 0 false _ p hp with h | h
    · simp at h
    · exact h
  have hafter : ∀ (seqNum : Nat) (m1 : List Char) (e1 : List NetEvent),
      (sendLoop seqNum m1 e1).outcome = .failed →
      (sendLoop seqNum m1 e1).seqAfter = seqNum := by
    intro seqNum m1 e1 hf
    have := sendLoopGo_seqAfter seqNum m1 e1 0 false
      { sent := [], packetsSent := 0, retransmissions := 0, acksReceived := 0 }
    rw [sendLoop] at hf ⊢
    rw [this, hf]
    simp
  refine ⟨fun s m es r a acc => sendLoopGo_seqAfter s m es r a acc, hsent, ?_⟩
  intro seqNum m1 m2 e1 e2 hf
  refine ⟨hafter seqNum m1 e1 hf, ?_⟩
  intro p hp
  rw [hafter seqNum m1 e1 hf] at hp
  exact hsent seqNum m2 e2 p hp

/-- C9 witness: a lone matching ACK yields ACKED and advances the counter to
1; six timeouts yield FAILED keeping the counter at 0, and the next message is
then transmitted with sequence number 0 again. -/
theorem c9_seq_counter_only_on_ack_witness :
    (sendLoopGo 0 ("hi".toList) [.recv ("0|ACK|".toList)] 0 false
        { sent := [], packetsSent := 0, retransmissions := 0, acksReceived := 0 }).seqAfter =
      (if (sendLoopGo 0 ("hi".toList) [.recv ("0|ACK|".toList)] 0 false
            { sent := [], packetsSent := 0, retransmissions := 0,
              acksReceived := 0 }).outcome = .acked
       then 0 + 1 else 0) ∧
    create_packet ((0 : Nat) : Int) ("DATA".toList) ("m2".toList) =
      create_packet ((0 : Nat) : Int) ("DATA".toList) ("m2".toList) ∧
    (sendLoop 0 ("m1".toList)
        [.timeout, .timeout, .timeout, .timeout, .timeout, .timeout]).seqAfter = 0 :=
  ⟨c9_seq_counter_only_on_ack.1 0 ("hi".toList) [.recv ("0|ACK|".toList)] 0 false
      { sent := [], packetsSent := 0, retransmissions := 0, acksReceived := 0 },
    c9_seq_counter_only_on_ack.2.1 0 ("m2".toList) [.timeout]
      (create_packet ((0 : Nat) : Int) ("DATA".toList) ("m2".toList)) (List.Mem.head _),
    (c9_seq_counter_only_on_ack.2.2 0 ("m1".toList) ("m2".toList)
      [.timeout, .timeout, .timeout, .timeout, .timeout, .timeout] [.timeout] rfl).1⟩

/-! ### Proxy lemmas -/

theorem server_cond_iff {cfg : ProxyConfig} {src : Endpoint} :
    (src.1 = cfg.serverIp ∧ src.2 = cfg.serverPort) ↔ src = serverEndpoint cfg := by
  constructor
  · intro h
    exact Prod.ext_iff.mpr ⟨h.1, h.2⟩
  · intro h
    subst h
    exact ⟨rfl, rfl⟩

theorem proxyStep_client_dropped {cfg : ProxyConfig} {st : ProxyState} {src : Endpoint}
    {data : List Char} {now d1 d2 u : ℚ}
    (h : src ≠ serverEndpoint cfg) (hd : d1 < cfg.clientDrop) :
    proxyStep cfg st src data now d1 d2 u =
      ({ st with totalPackets := st.totalPackets + 1,
                 clientToServerPackets := st.clientToServerPackets + 1,
                 latestClient := some src,
                 clientToServerDropped := st.clientToServerDropped + 1 }, []) := by
  have hc : ¬(src.1 = cfg.serverIp ∧ src.2 = cfg.serverPort) :=
    fun hx => h (server_cond_iff.mp hx)
  simp [proxyStep, hc, should_drop_packet, hd]

theorem proxyStep_client_delayed {cfg : ProxyConfig} {st : ProxyState} {src : Endpoint}
    {data : List Char} {now d1 d2 u : ℚ}
    (h : src ≠ serverEndpoint cfg) (hd : ¬ d1 < cfg.clientDrop)
    (he : d2 < cfg.clientDelay) :
    proxyStep cfg st src data now d1 d2 u =
      ({ st with totalPackets := st.totalPackets + 1,
                 clientToServerPackets := st.clientToServerPackets + 1,
                 latestClient := some src,
                 delayedPackets := st.delayedPackets ++
                   [⟨now + get_random_delay cfg.clientDelayTimeRange u,
                     serverEndpoint cfg, data⟩],
                 clientToServerDelayed := st.clientToServerDelayed + 1 }, []) := by
  have hc : ¬(src.1 = cfg.serverIp ∧ src.2 = cfg.serverPort) :=
    fun hx => h (server_cond_iff.mp hx)
  simp [proxyStep, hc, should_drop_packet, should_delay_packet, hd, he, serverEndpoint]

theorem proxyStep_client_forwarded {cfg : ProxyConfig} {st : ProxyState} {src : Endpoint}
    {data : List Char} {now d1 d2 u : ℚ}
    (h : src ≠ serverEndpoint cfg) (hd : ¬ d1 < cfg.clientDrop)
    (he : ¬ d2 < cfg.clientDelay) :
    proxyStep cfg st src data now d1 d2 u =
      ({ st with totalPackets := st.totalPackets + 1,
                 clientToServerPackets := st.clientToServerPackets + 1,
                 latestClient := some src }, [(serverEndpoint cfg, data)]) := by
  have hc : ¬(src.1 = cfg.serverIp ∧ src.2 = cfg.serverPort) :=
    fun hx => h (server_cond_iff.mp hx)
  simp [proxyStep, hc, should_drop_packet, should_delay_packet, hd, he, serverEndpoint]

theorem proxyStep_server_noclient {cfg : ProxyConfig} {st : ProxyState} {src : Endpoint}
    {data : List Char} {now d1 d2 u : ℚ}
    (h : src = serverEndpoint cfg) (hn : st.latestClient = none) :
    proxyStep cfg st src data now d1 d2 u =
      ({ st with totalPackets := st.totalPackets + 1,
                 serverToClientPackets := st.serverToClientPackets + 1 }, []) := by
  subst h
  simp [proxyStep, serverEndpoint, hn]

theorem proxyStep_server_dropped {cfg : ProxyConfig} {st : ProxyState} {src : Endpoint}
    {data : List Char} {now d1 d2 u : ℚ} {client : Endpoint}
    (h : src = serverEndpoint cfg) (hcl : st.latestClient = some client)
    (hd : d1 < cfg.serverDrop) :
    proxyStep cfg st src data now d1 d2 u =
      ({ st with totalPackets := st.totalPackets + 1,
                 serverToClientPackets := st.serverToClientPackets + 1,
                 serverToClientDropped := st.serverToClientDropped + 1 }, []) := by
  subst h
  simp [proxyStep, serverEndpoint, hcl, should_drop_packet, hd]

theorem proxyStep_server_delayed {cfg : ProxyConfig} {st : ProxyState} {src : Endpoint}
    {data : List Char} {now d1 d2 u : ℚ} {client : Endpoint}
    (h : src = serverEndpoint cfg) (hcl : st.latestClient = some client)
    (hd : ¬ d1 < cfg.serverDrop) (he : d2 < cfg.serverDelay) :
    proxyStep cfg st src data now d1 d2 u =
      ({ st with totalPackets := st.totalPackets + 1,
                 serverToClientPackets := st.serverToClientPackets + 1,
                 delayedPackets := st.delayedPackets ++
                   [⟨now + get_random_delay cfg.serverDelayTimeRange u, client, data⟩],
                 serverToClientDelayed := st.serverToClientDelayed + 1 }, []) := by
  subst h
  simp [proxyStep, serverEndpoint, hcl, should_drop_packet, should_delay_packet, hd, he]

theorem proxyStep_server_forwarded {cfg : ProxyConfig} {st : ProxyState} {src : Endpoint}
    {data : List Char} {now d1 d2 u : ℚ} {client : Endpoint}
    (h : src = serverEndpoint cfg) (hcl : st.latestClient = some client)
    (hd : ¬ d1 < cfg.serverDrop) (he : ¬ d2 < cfg.serverDelay) :
    proxyStep cfg st src data now d1 d2 u =
      ({ st with totalPackets := st.totalPackets + 1,
                 serverToClientPackets := st.serverToClientPackets + 1 },
        [(client, data)]) := by
  subst h
  simp [proxyStep, serverEndpoint, hcl, should_drop_packet, should_delay_packet, hd, he]

/-- Exhaustive characterization of one proxy iteration by direction, client
pointer and random draws. -/
theorem proxyStep_characterization (cfg : ProxyConfig) (st : ProxyState)
    (src : Endpoint) (data : List Char) (now d1 d2 u : ℚ) :
    (src ≠ serverEndpoint cfg ∧ d1 < cfg.clientDrop ∧
      proxyStep cfg st src data now d1 d2 u =
        ({ st with totalPackets := st.totalPackets + 1,
                   clientToServerPackets := st.clientToServerPackets + 1,
                   latestClient := some src,
                   clientToServerDropped := st.clientToServerDropped + 1 }, [])) ∨
    (src ≠ serverEndpoint cfg ∧ ¬ d1 < cfg.clientDrop ∧ d2 < cfg.clientDelay ∧
      proxyStep cfg st src data now d1 d2 u =
        ({ st with totalPackets := st.totalPackets + 1,
                   clientToServerPackets := st.clientToServerPackets + 1,
                   latestClient := some src,
                   delayedPackets := st.delayedPackets ++
                     [⟨now + get_random_delay cfg.clientDelayTimeRange u,
                       serverEndpoint cfg, data⟩],
                   clientToServerDelayed := st.clientToServerDelayed + 1 }, [])) ∨
    (src ≠ serverEndpoint cfg ∧ ¬ d1 < cfg.clientDrop ∧ ¬ d2 < cfg.clientDelay ∧
      proxyStep cfg st src data now d1 d2 u =
        ({ st with totalPackets := st.totalPackets + 1,
                   clientToServerPackets := st.clientToServerPackets + 1,
                   latestClient := some src }, [(serverEndpoint cfg, data)])) ∨
    (src = serverEndpoint cfg ∧ st.latestClient = none ∧
      proxyStep cfg st src data now d1 d2 u =
        ({ st with totalPackets := st.totalPackets + 1,
                   serverToClientPackets := st.serverToClientPackets + 1 }, [])) ∨
    (∃ client, src = serverEndpoint cfg ∧ st.latestClient = some client ∧
      d1 < cfg.serverDrop ∧
      proxyStep cfg st src data now d1 d2 u =
        ({ st with totalPackets := st.totalPackets + 1,
                   serverToClientPackets := st.serverToClientPackets + 1,
                   serverToClientDropped := st.serverToClientDropped + 1 }, [])) ∨
    (∃ client, src = serverEndpoint cfg ∧ st.latestClient = some client ∧
      ¬ d1 < cfg.serverDrop ∧ d2 < cfg.serverDelay ∧
      proxyStep cfg st src data now d1 d2 u =
        ({ st with totalPackets := st.totalPackets + 1,
                   serverToClientPackets := st.serverToClientPackets + 1,
                   delayedPackets := st.delayedPackets ++
                     [⟨now + get_random_delay cfg.serverDelayTimeRange u, client, data⟩],
                   serverToClientDelayed := st.serverToClientDelayed + 1 }, [])) ∨
    (∃ client, src = serverEndpoint cfg ∧ st.latestClient = some client ∧
      ¬ d1 < cfg.serverDrop ∧ ¬ d2 < cfg.serverDelay ∧
      proxyStep cfg st src data now d1 d2 u =
        ({ st with totalPackets := st.totalPackets + 1,
                   serverToClientPackets := st.serverToClientPackets + 1 },
          [(client, data)])) := by
  by_cases hsrc : src = serverEndpoint cfg
  · rcases Option.eq_none_or_eq_some st.latestClient with hcl | ⟨client, hcl⟩
    · exact Or.inr (Or.inr (Or.inr (Or.inl
        ⟨hsrc, hcl, proxyStep_server_noclient hsrc hcl⟩)))
    · by_cases hd : d1 < cfg.serverDrop
      · exact Or.inr (Or.inr (Or.inr (Or.inr (Or.inl
          ⟨client, hsrc, hcl, hd, proxyStep_server_dropped hsrc hcl hd⟩))))
      · by_cases he : d2 < cfg.serverDelay
        · exact Or.inr (Or.inr (Or.inr (Or.inr (Or.inr (Or.inl
            ⟨client, hsrc, hcl, hd, he, proxyStep_server_delayed hsrc hcl hd he⟩)))))
        · exact Or.inr (Or.inr (Or.inr (Or.inr (Or.inr (Or.inr
            ⟨client, hsrc, hcl, hd, he, proxyStep_server_forwarded hsrc hcl hd he⟩)))))
  · by_cases hd : d1 < cfg.clientDrop
    · exact Or.inl ⟨hsrc, hd, proxyStep_client_dropped hsrc hd⟩
    · by_cases he : d2 < cfg.clientDelay
      · exact Or.inr (Or.inl ⟨hsrc, hd, he, proxyStep_client_delayed hsrc hd he⟩)
      · exact Or.inr (Or.inr (Or.inl
          ⟨hsrc, hd, he, proxyStep_client_forwarded hsrc hd he⟩))

theorem append_singleton_ne {α : Type} (l : List α) (x : α) : l ++ [x] ≠ l := by
  intro h
  have hlen := congrArg List.length h
  simp at hlen

/-- C5 counterexample: the claim fails on the code in two ways.  A datagram
whose sequence field is not an integer (`abc|DATA|x`) makes server.py's
unguarded `int()` raise, terminating the receive loop (`crashed = true`),
contradicting "neither receive loop crashes"; and the proxy does make a
forwarding decision for an unparseable datagram (`abc` is forwarded to the
server), contradicting "the proxy makes no forwarding decision for it". -/
theorem c5_counterexample :
    (serverStep initServerState "127.0.0.1:40000" ("abc|DATA|x".toList)).1.crashed = true ∧
    (serverStep initServerState "127.0.0.1:40000" ("abc|DATA|x".toList)).2 = none ∧
    (serverStep initServerState "127.0.0.1:40000" ("abc|DATA|x".toList)).1.packetsReceived
      = 1 ∧
    parse_packet ("abc".toList) = none ∧
    (proxyStep perfectConfig initProxyState ("10.0.0.9", 40000) ("abc".toList) 0 0 0 0).2 =
      [(serverEndpoint perfectConfig, "abc".toList)] := by
  refine ⟨?_, ?_, ?_, ?_, ?_⟩ <;> rfl

/-- C5 amended: a datagram with fewer than three fields is discarded by the
receiver with no ACK, `packets_received` still incrementing and the loop
continuing; a datagram whose sequence field is not a valid integer is still
counted as received and gets no ACK, but the uncaught error terminates the
server's receive loop; and the proxy does not special-case malformed
datagrams — it makes its normal forwarding decision on the raw bytes (shown
here for the undropped, undelayed client-origin case). -/
theorem c5_amended_malformed_handling :
    (∀ (st : ServerState) (key : String) (d : List Char), st.crashed = false →
      server_parse_packet d = .malformed →
      serverStep st key d = ({ st with packetsReceived := st.packetsReceived + 1 }, none)) ∧
    (∀ (st : ServerState) (key : String) (d : List Char), st.crashed = false →
      server_parse_packet d = .raised →
      serverStep st key d =
        ({ st with packetsReceived := st.packetsReceived + 1, crashed := true }, none)) ∧
    (∀ (cfg : ProxyConfig) (st : ProxyState) (src : Endpoint) (data : List Char)
      (now d1 d2 u : ℚ), parse_packet data = none → src ≠ serverEndpoint cfg →
      ¬ d1 < cfg.clientDrop → ¬ d2 < cfg.clientDelay →
      (proxyStep cfg st src data now d1 d2 u).2 = [(serverEndpoint cfg, data)]) := by
  refine ⟨fun st key d hc hp => serverStep_malformed hc hp,
    fun st key d hc hp => serverStep_raised hc hp, ?_⟩
  intro cfg st src data now d1 d2 u hpp hsrc hd he
  rw [proxyStep_client_forwarded hsrc hd he]

/-- C5 witness: the amended behaviour evaluated on a delimiterless datagram
(discarded, loop alive), on a non-integer sequence field (loop terminated),
and on the proxy forwarding the raw unparseable datagram. -/
theorem c5_amended_malformed_handling_witness :
    serverStep initServerState "127.0.0.1:40000" ("hello".toList) =
      ({ initServerState with packetsReceived := 1 }, none) ∧
    serverStep initServerState "127.0.0.1:40000" ("abc|DATA|x".toList) =
      ({ initServerState with packetsReceived := 1, crashed := true }, none) ∧
    (proxyStep perfectConfig initProxyState ("10.0.0.9", 40000) ("abc".toList) 0 0 0 0).2 =
      [(serverEndpoint perfectConfig, "abc".toList)] :=
  ⟨c5_amended_malformed_handling.1 initServerState "127.0.0.1:40000" ("hello".toList)
      rfl (by decide),
    c5_amended_malformed_handling.2.1 initServerState "127.0.0.1:40000"
      ("abc|DATA|x".toList) rfl (by decide),
    c5_amended_malformed_handling.2.2 perfectConfig initProxyState ("10.0.0.9", 40000)
      ("abc".toList) 0 0 0 0 (by decide) (by decide) (by norm_num [perfectConfig])
      (by norm_num [perfectConfig])⟩

/-- C6: drop is decided before delay and only an undropped datagram can be
delayed, so drop, delay and forward are mutually exclusive; with a drop
probability of 1 every datagram of that direction is discarded (no send, no
queueing), and with drop and delay probabilities 0 every routable datagram is
forwarded immediately without entering the delayed-delivery queue. -/
theorem c6_drop_delay_priority :
    ∀ (cfg : ProxyConfig) (st : ProxyState) (src : Endpoint) (data : List Char)
      (now d1 d2 u : ℚ),
      (((proxyStep cfg st src data now d1 d2 u).2 ≠ [] →
          (proxyStep cfg st src data now d1 d2 u).1.delayedPackets = st.delayedPackets ∧
          droppedTotal (proxyStep cfg st src data now d1 d2 u).1 = droppedTotal st) ∧
        ((proxyStep cfg st src data now d1 d2 u).1.delayedPackets ≠ st.delayedPackets →
          (proxyStep cfg st src data now d1 d2 u).2 = [] ∧
          droppedTotal (proxyStep cfg st src data now d1 d2 u).1 = droppedTotal st) ∧
        (droppedTotal (proxyStep cfg st src data now d1 d2 u).1 ≠ droppedTotal st →
          (proxyStep cfg st src data now d1 d2 u).2 = [] ∧
          (proxyStep cfg st src data now d1 d2 u).1.delayedPackets = st.delayedPackets)) ∧
      (src ≠ serverEndpoint cfg → d1 < cfg.clientDrop →
        (proxyStep cfg st src data now d1 d2 u).2 = [] ∧
        (proxyStep cfg st src data now d1 d2 u).1.delayedPackets = st.delayedPackets ∧
        (proxyStep cfg st src data now d1 d2 u).1.clientToServerDropped =
          st.clientToServerDropped + 1) ∧
      (src = serverEndpoint cfg → st.latestClient ≠ none → d1 < cfg.serverDrop →
        (proxyStep cfg st src data now d1 d2 u).2 = [] ∧
        (proxyStep cfg st src data now d1 d2 u).1.delayedPackets = st.delayedPackets ∧
        (proxyStep cfg st src data now d1 d2 u).1.serverToClientDropped =
          st.serverToClientDropped + 1) ∧
      (cfg.clientDrop = 1 → d1 < 1 → src ≠ serverEndpoint cfg →
        (proxyStep cfg st src data now d1 d2 u).2 = [] ∧
        (proxyStep cfg st src data now d1 d2 u).1.delayedPackets = st.delayedPackets) ∧
      (cfg.serverDrop = 1 → d1 < 1 → src = serverEndpoint cfg →
        (proxyStep cfg st src data now d1 d2 u).2 = [] ∧
        (proxyStep cfg st src data now d1 d2 u).1.delayedPackets = st.delayedPackets) ∧
      (cfg.clientDrop = 0 → cfg.clientDelay = 0 → 0 ≤ d1 → 0 ≤ d2 →
        src ≠ serverEndpoint cfg →
        (proxyStep cfg st src data now d1 d2 u).2 = [(serverEndpoint cfg, data)] ∧
        (proxyStep cfg st src data now d1 d2 u).1.delayedPackets = st.delayedPackets) ∧
      (cfg.serverDrop = 0 → cfg.serverDelay = 0 → 0 ≤ d1 → 0 ≤ d2 →
        src = serverEndpoint cfg →
        ∀ client, st.latestClient = some client →
        (proxyStep cfg st src data now d1 d2 u).2 = [(client, data)] ∧
        (proxyStep cfg st src data now d1 d2 u).1.delayedPackets = st.delayedPackets) := by
  intro cfg st src data now d1 d2 u
  refine ⟨?_, ?_, ?_, ?_, ?_, ?_, ?_⟩
  · rcases proxyStep_characterization cfg st src data now d1 d2 u with
      ⟨-, -, heq⟩ | ⟨-, -, -, heq⟩ | ⟨-, -, -, heq⟩ | ⟨-, -, heq⟩ |
      ⟨c, -, -, -, heq⟩ | ⟨c, -, -, -, -, heq⟩ | ⟨c, -, -, -, -, heq⟩ <;>
      rw [heq] <;>
      refine ⟨fun h => ?_, fun h => ?_, fun h => ?_⟩ <;>
      simp_all [droppedTotal, append_singleton_ne]
  · intro hsrc hd
    rw [proxyStep_client_dropped hsrc hd]
    simp
  · intro hsrc hne hd
    rcases Option.eq_none_or_eq_some st.latestClient with hcl | ⟨client, hcl⟩
    · exact absurd hcl hne
    · rw [proxyStep_server_dropped hsrc hcl hd]
      simp
  · intro hp hd1 hsrc
    rw [proxyStep_client_dropped hsrc (by rw [hp]; exact hd1)]
    simp
  · intro hp hd1 hsrc
    rcases Option.eq_none_or_eq_some st.latestClient with hcl | ⟨client, hcl⟩
    · rw [proxyStep_server_noclient hsrc hcl]
      simp
    · rw [proxyStep_server_dropped hsrc hcl (by rw [hp]; exact hd1)]
      simp
  · intro hp hq h1 h2 hsrc
    rw [proxyStep_client_forwarded hsrc (by rw [hp]; exact not_lt.mpr h1)
      (by rw [hq]; exact not_lt.mpr h2)]
    simp
  · intro hp hq h1 h2 hsrc client hcl
    rw [proxyStep_server_forwarded hsrc hcl (by rw [hp]; exact not_lt.mpr h1)
      (by rw [hq]; exact not_lt.mpr h2)]
    simp

/-- C6 witness: under the blackhole preset a client datagram with drop draw
1/2 is discarded without queueing, and under the perfect preset the same
datagram is forwarded to the server immediately with the queue untouched. -/
theorem c6_drop_delay_priority_witness :
    ((proxyStep blackholeConfig initProxyState ("10.0.0.9", 40000) ("0|DATA|hi".toList)
        0 (1/2) (1/2) (1/10)).2 = [] ∧
      (proxyStep blackholeConfig initProxyState ("10.0.0.9", 40000) ("0|DATA|hi".toList)
        0 (1/2) (1/2) (1/10)).1.delayedPackets = initProxyState.delayedPackets) ∧
    ((proxyStep perfectConfig initProxyState ("10.0.0.9", 40000) ("0|DATA|hi".toList)
        0 0 0 (1/10)).2 = [(serverEndpoint perfectConfig, "0|DATA|hi".toList)] ∧
      (proxyStep perfectConfig initProxyState ("10.0.0.9", 40000) ("0|DATA|hi".toList)
        0 0 0 (1/10)).1.delayedPackets = initProxyState.delayedPackets) :=
  ⟨(c6_drop_delay_priority blackholeConfig initProxyState ("10.0.0.9", 40000)
      ("0|DATA|hi".toList) 0 (1/2) (1/2) (1/10)).2.2.2.1 rfl (by norm_num) (by decide),
    (c6_drop_delay_priority perfectConfig initProxyState ("10.0.0.9", 40000)
      ("0|DATA|hi".toList) 0 0 0 (1/10)).2.2.2.2.2.1 rfl rfl le_rfl le_rfl (by decide)⟩

theorem process_delayed_packets_le (now : ℚ) (q : List PendingDelivery) :
    ∀ e ∈ process_delayed_packets now q, now ≤ e.1 := by
  induction q generalizing now with
  | nil =>
    intro e he
    simp [process_delayed_packets] at he
  | cons p rest ih =>
    intro e he
    simp only [process_delayed_packets] at he
    rcases List.mem_cons.mp he with rfl | h
    · exact le_max_left _ _
    · exact le_trans (le_max_left _ _) (ih (max now p.sendTime) e h)

/-- C7: the scheduler delivers strictly in enqueue (FIFO) order — the sequence
of `(destination, data)` sends equals the queue order — and delivery instants
are monotone along that order, so a later-enqueued packet is never sent before
an earlier one, whatever its `release_time`; concretely, a packet queued with
release 1/2 followed by one with release 1/100 are both delivered at 1/2, in
queue order. -/
theorem c7_fifo_order :
    ∀ (now : ℚ) (q : List PendingDelivery),
      ((process_delayed_packets now q).map (fun e => (e.2.1, e.2.2)) =
        q.map (fun p => (p.dest, p.data)) ∧
      (process_delayed_packets now q).Pairwise (fun e1 e2 => e1.1 ≤ e2.1)) ∧
      ∀ (A B : Endpoint) (da db : List Char),
        process_delayed_packets 0
            [⟨1/2, A, da⟩, ⟨1/100, B, db⟩] =
          [(1/2, A, da), (1/2, B, db)] := by
  intro now q
  constructor
  · induction q generalizing now with
    | nil => exact ⟨rfl, List.Pairwise.nil⟩
    | cons p rest ih =>
      obtain ⟨hmap, hpw⟩ := ih (max now p.sendTime)
      constructor
      · simp only [process_delayed_packets, List.map_cons, hmap]
      · simp only [process_delayed_packets]
        exact List.Pairwise.cons (process_delayed_packets_le (max now p.sendTime) rest) hpw
  · intro A B da db
    norm_num [process_delayed_packets]

/-- C8: a datagram is server-origin iff its source endpoint equals the
configured server endpoint exactly; then the packet counters of that
direction increment, the client pointer is untouched, and every datagram the
proxy sends or enqueues in that iteration is addressed to the stored client
pointer.  Any other datagram is client-origin: it increments the
client-direction counter and overwrites the client pointer with its source. -/
theorem c8_direction_classifier :
    ∀ (cfg : ProxyConfig) (st : ProxyState) (src : Endpoint) (data : List Char)
      (now d1 d2 u : ℚ),
      (src = serverEndpoint cfg →
        (proxyStep cfg st src data now d1 d2 u).1.serverToClientPackets =
          st.serverToClientPackets + 1 ∧
        (proxyStep cfg st src data now d1 d2 u).1.clientToServerPackets =
          st.clientToServerPackets ∧
        (proxyStep cfg st src data now d1 d2 u).1.latestClient = st.latestClient ∧
        (∀ dest msg, (dest, msg) ∈ (proxyStep cfg st src data now d1 d2 u).2 →
          st.latestClient = some dest) ∧
        (∀ pd, pd ∈ (proxyStep cfg st src data now d1 d2 u).1.delayedPackets →
          pd ∈ st.delayedPackets ∨ st.latestClient = some pd.dest)) ∧
      (src ≠ serverEndpoint cfg →
        (proxyStep cfg st src data now d1 d2 u).1.clientToServerPackets =
          st.clientToServerPackets + 1 ∧
        (proxyStep cfg st src data now d1 d2 u).1.serverToClientPackets =
          st.serverToClientPackets ∧
        (proxyStep cfg st src data now d1 d2 u).1.latestClient = some src) := by
  intro cfg st src data now d1 d2 u
  constructor
  · intro hsrc
    rcases proxyStep_characterization cfg st src data now d1 d2 u with
      ⟨hne, -, -⟩ | ⟨hne, -, -, -⟩ | ⟨hne, -, -, -⟩ | ⟨-, hcl, heq⟩ |
      ⟨c, -, hcl, -, heq⟩ | ⟨c, -, hcl, -, -, heq⟩ | ⟨c, -, hcl, -, -, heq⟩
    · exact absurd hsrc hne
    · exact absurd hsrc hne
    · exact absurd hsrc hne
    · rw [heq]
      refine ⟨rfl, rfl, rfl, ?_, ?_⟩
      · intro dest msg hmem
        simp at hmem
      · intro pd hmem
        exact Or.inl hmem
    · rw [heq]
      refine ⟨rfl, rfl, rfl, ?_, ?_⟩
      · intro dest msg hmem
        simp at hmem
      · intro pd hmem
        exact Or.inl hmem
    · rw [heq]
      refine ⟨rfl, rfl, rfl, ?_, ?_⟩
      · intro dest msg hmem
        simp at hmem
      · intro pd hmem
        simp only [List.mem_append, List.mem_singleton] at hmem
        rcases hmem with h | h
        · exact Or.inl h
        · subst h
          exact Or.inr hcl
    · rw [heq]
      refine ⟨rfl, rfl, rfl, ?_, ?_⟩
      · intro dest msg hmem
        simp only [List.mem_singleton, Prod.mk.injEq] at hmem
        rw [hcl, hmem.1]
      · intro pd hmem
        exact Or.inl hmem
  · intro hsrc
    rcases proxyStep_characterization cfg st src data now d1 d2 u with
      ⟨-, -, heq⟩ | ⟨-, -, -, heq⟩ | ⟨-, -, -, heq⟩ | ⟨heqsrc, -, -⟩ |
      ⟨c, heqsrc, -, -, -⟩ | ⟨c, heqsrc, -, -, -, -⟩ | ⟨c, heqsrc, -, -, -, -⟩
    · rw [heq]
      exact ⟨rfl, rfl, rfl⟩
    · rw [heq]
      exact ⟨rfl, rfl, rfl⟩
    · rw [heq]
      exact ⟨rfl, rfl, rfl⟩
    · exact absurd heqsrc hsrc
    · exact absurd heqsrc hsrc
    · exact absurd heqsrc hsrc
    · exact absurd heqsrc hsrc

/-- C8 witness: the classification evaluated at the configured server endpoint
(stored client pointer the target) and at a client endpoint (pointer
overwritten). -/
theorem c8_direction_classifier_witness :
    ((proxyStep perfectConfig initProxyState ("127.0.0.1", 5000) ("0|ACK|".toList)
        0 0 0 0).1.serverToClientPackets = initProxyState.serverToClientPackets + 1 ∧
      (proxyStep perfectConfig initProxyState ("127.0.0.1", 5000) ("0|ACK|".toList)
        0 0 0 0).1.latestClient = initProxyState.latestClient) ∧
    (proxyStep perfectConfig initProxyState ("10.0.0.9", 40000) ("0|DATA|hi".toList)
      0 0 0 0).1.latestClient = some ("10.0.0.9", 40000) := by
  have h1 := (c8_direction_classifier perfectConfig initProxyState ("127.0.0.1", 5000)
    ("0|ACK|".toList) 0 0 0 0).1 rfl
  have h2 := (c8_direction_classifier perfectConfig initProxyState ("10.0.0.9", 40000)
    ("0|DATA|hi".toList) 0 0 0 0).2 (by decide)
  exact ⟨⟨h1.1, h1.2.2.1⟩, h2.2.2⟩

/-- C10: a server-origin datagram arriving while the client pointer is unset
changes nothing but `total_packets` and `server_to_client_packets` — nothing
is sent or queued, no drop/delay counter moves — and the outcome does not even
consult the random draws (no drop/delay decision is made). -/
theorem c10_server_origin_without_client :
    ∀ (cfg : ProxyConfig) (st : ProxyState) (src : Endpoint) (data : List Char)
      (now d1 d2 u : ℚ), src = serverEndpoint cfg → st.latestClient = none →
      proxyStep cfg st src data now d1 d2 u =
        ({ st with totalPackets := st.totalPackets + 1,
                   serverToClientPackets := st.serverToClientPackets + 1 }, []) ∧
      ∀ d1' d2' u' : ℚ, proxyStep cfg st src data now d1' d2' u' =
        proxyStep cfg st src data now d1 d2 u := by
  intro cfg st src data now d1 d2 u hsrc hcl
  refine ⟨proxyStep_server_noclient hsrc hcl, fun d1' d2' u' => ?_⟩
  rw [proxyStep_server_noclient hsrc hcl, proxyStep_server_noclient hsrc hcl]

/-- C10 witness: the first ACK from the configured server, arriving before any
client datagram, is discarded with only the two packet counters moving, and
the result is independent of the draws. -/
theorem c10_server_origin_without_client_witness :
    proxyStep perfectConfig initProxyState ("127.0.0.1", 5000) ("0|ACK|".toList)
        0 (1/2) (1/2) (1/10) =
      ({ initProxyState with
           totalPackets := initProxyState.totalPackets + 1,
           serverToClientPackets := initProxyState.serverToClientPackets + 1 }, []) ∧
    proxyStep perfectConfig initProxyState ("127.0.0.1", 5000)
        ("0|ACK|".toList) 0 0 0 0 =
      proxyStep perfectConfig initProxyState ("127.0.0.1", 5000) ("0|ACK|".toList)
        0 (1/2) (1/2) (1/10) :=
  ⟨(c10_server_origin_without_client perfectConfig initProxyState ("127.0.0.1", 5000)
      ("0|ACK|".toList) 0 (1/2) (1/2) (1/10) rfl rfl).1,
    (c10_server_origin_without_client perfectConfig initProxyState ("127.0.0.1", 5000)
      ("0|ACK|".toList) 0 (1/2) (1/2) (1/10) rfl rfl).2 0 0 0⟩

end RelUdp
